import Mathlib

/-!
Shallow embedding of `src/address_book_manager.py` (a console contact
directory with phone/birthday validation, an insertion-ordered name→record
mapping, pickle persistence, and a line-oriented command dispatcher), with
theorems checking the natural-language specification against it.

Modelling conventions:
* Python strings are Lean `String`s; character classes (`\d` of `re`,
  whitespace of `str.split`) are modelled on the ASCII fragment via
  `Char.isDigit` / `Char.isWhitespace`, which is exact for every input the
  claims and counterexamples mention.
* `datetime` values are a calendar date plus a time-of-day in seconds
  (`DateTime`); `datetime.today()` becomes an explicit `now : DateTime`
  argument.  Sub-second precision is coarsened to seconds; none of the
  compared quantities distinguish finer resolution.
* Exceptions become `Except`; an `Except.error` escaping `dispatch` /
  `main_loop` models an uncaught Python exception terminating the process
  (`main` installs no handler around its loop).
-/

namespace ABook

/-! ### Field validation -/

/-- `Phone._validate` uses `re.match(r'^\d{10}$', value)`.  Python's `$`
matches at the end of the string or just before a single newline that ends
the string, so the pattern also accepts ten digits followed by `"\n"`. -/
def phoneMatchAux (l : List Char) : Bool :=
  (l.length == 10 && l.all Char.isDigit) ||
  (l.length == 11 && (l.take 10).all Char.isDigit && l.drop 10 == [Char.ofNat 10])

/-- Truth of `re.match(r'^\d{10}$', s)`. -/
def phoneMatch (s : String) : Bool := phoneMatchAux s.data

/-- `Phone.__init__` / `Phone._validate`: returns the accepted value or
raises `ValueError("Phone number must have 10 digits.")`. -/
def phone_validate (s : String) : Except String String :=
  if phoneMatch s then Except.ok s else Except.error "Phone number must have 10 digits."

/-- Numeric value of a digit string (how `strptime` reads a matched group). -/
def digitsVal (l : List Char) : Nat := l.foldl (fun a c => 10 * a + (c.toNat - 48)) 0

/-- Gregorian leap-year rule used by `datetime`. -/
def isLeap (y : Nat) : Bool := (y % 4 == 0) && (!(y % 100 == 0) || (y % 400 == 0))

/-- Length of a month as `datetime` validates it. -/
def daysInMonth (y m : Nat) : Nat :=
  if m = 2 then (if isLeap y then 29 else 28)
  else if m = 4 ∨ m = 6 ∨ m = 9 ∨ m = 11 then 30
  else 31

/-- The value checks of `strptime("%d.%m.%Y")` plus `datetime` construction
on the three digit groups: day group of 1–2 digits valued 1–31 (the regex
alternation `3[01]|[12]\d|0[1-9]|[1-9]` accepts a 1–2 digit group exactly
when its value is 1–31), month group of 1–2 digits valued 1–12
(`1[0-2]|0[1-9]|[1-9]`), year group of exactly 4 digits (`\d\d\d\d`), and
`datetime(year, month, day)` demanding `1 ≤ year` and a day that exists in
the month. -/
def dmyOk (dcs mcs ycs : List Char) : Prop :=
  1 ≤ dcs.length ∧ dcs.length ≤ 2 ∧ 1 ≤ digitsVal dcs ∧ digitsVal dcs ≤ 31 ∧
  1 ≤ mcs.length ∧ mcs.length ≤ 2 ∧ 1 ≤ digitsVal mcs ∧ digitsVal mcs ≤ 12 ∧
  ycs.length = 4 ∧ 1 ≤ digitsVal ycs ∧
  digitsVal dcs ≤ daysInMonth (digitsVal ycs) (digitsVal mcs)

instance (dcs mcs ycs : List Char) : Decidable (dmyOk dcs mcs ycs) := by
  unfold dmyOk
  infer_instance

/-- `datetime.strptime(value, "%d.%m.%Y")` on a character list.  CPython's
`_strptime` compiles the format to a regex whose literal (escaped) dots
delimit three digit groups, requires the match to consume the whole string
("unconverted data remains" otherwise), checks the groups per `dmyOk`, and
builds the `datetime`.  The digit groups are the maximal digit runs before
each dot, computed here with `takeWhile`/`dropWhile`. -/
def strptimeDMYChars (cs : List Char) : Option (Nat × Nat × Nat) :=
  match cs.dropWhile Char.isDigit with
  | c1 :: r2 =>
    if c1 = '.' then
      match r2.dropWhile Char.isDigit with
      | c2 :: r4 =>
        if c2 = '.' then
          if r4.dropWhile Char.isDigit = [] ∧
             dmyOk (cs.takeWhile Char.isDigit) (r2.takeWhile Char.isDigit)
               (r4.takeWhile Char.isDigit)
          then some (digitsVal (cs.takeWhile Char.isDigit),
                     digitsVal (r2.takeWhile Char.isDigit),
                     digitsVal (r4.takeWhile Char.isDigit))
          else none
        else none
      | [] => none
    else none
  | [] => none

/-- `datetime.strptime(s, "%d.%m.%Y")`, returning `(day, month, year)`. -/
def strptimeDMY (s : String) : Option (Nat × Nat × Nat) := strptimeDMYChars s.data

/-- `Birthday._validate`: re-raises any `strptime` failure as
`ValueError("Invalid date format. Use DD.MM.YYYY")`. -/
def birthday_validate (s : String) : Except String Unit :=
  match strptimeDMY s with
  | some _ => Except.ok ()
  | none => Except.error "Invalid date format. Use DD.MM.YYYY"

/-! ### Dates and instants -/

/-- A calendar date as `datetime.date` carries it. -/
structure Date where
  year : Nat
  month : Nat
  day : Nat
deriving DecidableEq, Repr

/-- Days in the years `1 .. y-1` (proleptic Gregorian, as `datetime`). -/
def daysBeforeYear (y : Nat) : Nat :=
  365 * (y - 1) + ((y - 1) / 4 - (y - 1) / 100 + (y - 1) / 400)

/-- Days in the months `1 .. m-1` of year `y`. -/
def daysBeforeMonth (y m : Nat) : Nat :=
  (List.range (m - 1)).foldl (fun a i => a + daysInMonth y (i + 1)) 0

/-- `date.toordinal()`: day number with 0001-01-01 ↦ 1. -/
def Date.toOrdinal (d : Date) : Nat :=
  daysBeforeYear d.year + daysBeforeMonth d.year d.month + d.day

/-- A `datetime.datetime`: date plus time-of-day (seconds since midnight).
`strptime` results have `tod = 0`; `datetime.today()` almost never does. -/
structure DateTime where
  date : Date
  tod : Nat
deriving DecidableEq, Repr

def secsPerDay : Nat := 86400

/-- Linearisation of a datetime; `datetime` comparison is comparison of
these instants (lexicographic on date then time). -/
def DateTime.instant (t : DateTime) : Nat := t.date.toOrdinal * secsPerDay + t.tod

/-- `datetime.replace(year=y)`: keeps month and day, revalidates them
against the new year; raises `ValueError` (here `none`) when the day does
not exist in that year (Feb 29 in a non-leap year). -/
def dateReplaceYear (b : Date) (y : Nat) : Option Date :=
  if b.day ≤ daysInMonth y b.month then some (Date.mk y b.month b.day) else none

/-! ### Records -/

/-- `Record`: a `Name` value, a list of `Phone` values (their `.value`
strings), and an optional `Birthday` value (its `.value` string, reparsed
on demand exactly as `Birthday.date` does). -/
structure Record where
  name : String
  phones : List String
  birthday : Option String
deriving DecidableEq, Repr

/-- `Record.edit_phone`'s loop over the phone list: at the first element
equal to `old` it evaluates `Phone(new)` (which can raise the validation
`ValueError`) and overwrites that element's `value`; if the loop finishes
it raises `ValueError("Phone not found.")`. -/
def editPhoneList : List String → String → String → Except String (List String)
  | [], _, _ => Except.error "Phone not found."
  | p :: rest, old, new =>
    if p = old then
      match phone_validate new with
      | Except.ok v => Except.ok (v :: rest)
      | Except.error e => Except.error e
    else
      match editPhoneList rest old new with
      | Except.ok rest2 => Except.ok (p :: rest2)
      | Except.error e => Except.error e

/-- `Record.edit_phone(old, new)` (mutation returned as a new record). -/
def Record.edit_phone (r : Record) (old new : String) : Except String Record :=
  match editPhoneList r.phones old new with
  | Except.ok ps => Except.ok { r with phones := ps }
  | Except.error e => Except.error e

/-- `Record.get_birthday`. -/
def Record.get_birthday (r : Record) : String :=
  match r.birthday with
  | some b => b
  | none => "Birthday not set."

/-- Apostrophe character, kept out of string literals. -/
def sq : String := (Char.ofNat 39).toString

/-- `Record.__str__`. -/
def recordStr (r : Record) : String :=
  "Contact name: " ++ r.name ++ ", phones: " ++ String.intercalate "; " r.phones
    ++ ", birthday: " ++ r.get_birthday

/-! ### The directory (`AddressBook`, a `UserDict`) -/

/-- CPython `dict` assignment `d[k] = v` on an insertion-ordered
association list: updating an existing key keeps its position, a new key
is appended at the end. -/
def dictSet : List (String × Record) → String → Record → List (String × Record)
  | [], k, v => [(k, v)]
  | (k1, v1) :: rest, k, v =>
    if k1 = k then (k, v) :: rest else (k1, v1) :: dictSet rest k v

/-- `dict.get(k)`. -/
def dictGet : List (String × Record) → String → Option Record
  | [], _ => none
  | (k1, v1) :: rest, k => if k1 = k then some v1 else dictGet rest k

/-- `AddressBook`: the `UserDict`'s `data` mapping, insertion-ordered. -/
structure AddressBook where
  data : List (String × Record)
deriving DecidableEq, Repr

/-- `AddressBook.add_record`. -/
def AddressBook.add_record (b : AddressBook) (r : Record) : AddressBook :=
  AddressBook.mk (dictSet b.data r.name r)

/-- `AddressBook.find`. -/
def AddressBook.find (b : AddressBook) (name : String) : Option Record :=
  dictGet b.data name

/-! ### Persistence (`pickle.dump` / `pickle.load`)

`pickle` serialises the `data` dict (string keys, `Record` objects whose
state is the name string, the list of phone value strings and the optional
birthday value string) to opaque bytes and reconstructs equal objects.  It
is modelled by an explicit injective encoding into a value tree `PickleVal`
together with its decoder; the persisted file is `Option PickleVal`
(`none` = the file does not exist). -/

inductive PickleVal where
  | pstr : String → PickleVal
  | plist : List PickleVal → PickleVal
  | pnone : PickleVal
  | pdict : List (PickleVal × PickleVal) → PickleVal

/-- Serialised form of one `Record`. -/
def pickleRecord (r : Record) : PickleVal :=
  PickleVal.plist [PickleVal.pstr r.name,
    PickleVal.plist (r.phones.map PickleVal.pstr),
    (match r.birthday with
     | some b => PickleVal.pstr b
     | none => PickleVal.pnone)]

/-- Decode a list of serialised strings. -/
def decodeStrList : List PickleVal → Option (List String)
  | [] => some []
  | PickleVal.pstr s :: rest => (decodeStrList rest).map (fun l => s :: l)
  | _ => none

/-- Decode one `Record`. -/
def unpickleRecord : PickleVal → Option Record
  | PickleVal.plist [PickleVal.pstr n, PickleVal.plist ps, b] =>
    match decodeStrList ps, b with
    | some phones, PickleVal.pnone => some (Record.mk n phones none)
    | some phones, PickleVal.pstr s => some (Record.mk n phones (some s))
    | _, _ => none
  | _ => none

/-- Serialised form of the whole `data` mapping. -/
def pickleData (d : List (String × Record)) : PickleVal :=
  PickleVal.pdict (d.map (fun kv => (PickleVal.pstr kv.1, pickleRecord kv.2)))

/-- Decode the entries of a serialised mapping. -/
def unpickleDict : List (PickleVal × PickleVal) → Option (List (String × Record))
  | [] => some []
  | (PickleVal.pstr k, v) :: rest =>
    match unpickleRecord v, unpickleDict rest with
    | some r, some tail => some ((k, r) :: tail)
    | _, _ => none
  | _ => none

/-- Decode the whole `data` mapping. -/
def unpickleData : PickleVal → Option (List (String × Record))
  | PickleVal.pdict l => unpickleDict l
  | _ => none

/-- `AddressBook.save_to_file`: `pickle.dump(self.data, file)`, replacing
any prior content of the file. -/
def save_to_file (book : AddressBook) : Option PickleVal :=
  some (pickleData book.data)

/-- `AddressBook.load_from_file` on a fresh directory: `self.data =
pickle.load(file)`, or `self.data = {}` when the file does not exist; any
other unpickling failure raises. -/
def load_from_file (storage : Option PickleVal) : Except String AddressBook :=
  match storage with
  | none => Except.ok (AddressBook.mk [])
  | some v =>
    match unpickleData v with
    | some d => Except.ok (AddressBook.mk d)
    | none => Except.error "unpickling error"

/-! ### Birthday queries -/

/-- `Record.days_to_birthday` with `datetime.today()` made explicit.
`self.birthday.date` reparses the stored string (raising `ValueError` when
it does not parse — impossible for a validated `Birthday`), `replace(year=…)`
can raise for Feb 29, `<` compares full datetime instants, and
`timedelta.days` is floor division of the signed difference by one day. -/
def days_to_birthday (r : Record) (today : DateTime) : Except String (Option Int) :=
  match r.birthday with
  | none => Except.ok none
  | some bs =>
    match strptimeDMY bs with
    | none => Except.error "time data does not match format"
    | some (d, m, y) =>
      match dateReplaceYear (Date.mk y m d) today.date.year with
      | none => Except.error "day is out of range for month"
      | some nb =>
        if (DateTime.mk nb 0).instant < today.instant then
          match dateReplaceYear (Date.mk y m d) (today.date.year + 1) with
          | none => Except.error "day is out of range for month"
          | some nb2 =>
            Except.ok (some (Int.fdiv ((DateTime.mk nb2 0).instant - (today.instant : Int)) secsPerDay))
        else
          Except.ok (some (Int.fdiv ((DateTime.mk nb 0).instant - (today.instant : Int)) secsPerDay))

/-- The list comprehension of `AddressBook.get_upcoming_birthdays` over
`self.data.values()`: keep a record iff it has a birthday and
`today <= birthday.replace(year=today.year) <= today + timedelta(days=7)`,
where both comparisons are full datetime comparisons and the substituted
birthday has time 00:00.  An exception from `strptime`/`replace` aborts the
whole comprehension. -/
def upcomingAux (rs : List Record) (today : DateTime) : Except String (List Record) :=
  match rs with
  | [] => Except.ok []
  | r :: rest =>
    match r.birthday with
    | none => upcomingAux rest today
    | some bs =>
      match strptimeDMY bs with
      | none => Except.error "time data does not match format"
      | some (d, m, y) =>
        match dateReplaceYear (Date.mk y m d) today.date.year with
        | none => Except.error "day is out of range for month"
        | some b2 =>
          if today.instant ≤ (DateTime.mk b2 0).instant ∧
             (DateTime.mk b2 0).instant ≤ today.instant + 7 * secsPerDay then
            (upcomingAux rest today).map (fun l => r :: l)
          else
            upcomingAux rest today

/-- `AddressBook.get_upcoming_birthdays` with `datetime.today()` explicit. -/
def get_upcoming_birthdays (book : AddressBook) (today : DateTime) : Except String (List Record) :=
  upcomingAux (book.data.map Prod.snd) today

/-! ### Command layer -/

/-- The exception classes `input_error` catches, with `str(e)`:
`str` of a `KeyError` is the `repr` of its argument, hence quoted. -/
inductive PyErr where
  | valueErr : String → PyErr
  | keyErr : String → PyErr
  | indexErr : String → PyErr
deriving DecidableEq, Repr

def PyErr.toMessage : PyErr → String
  | PyErr.valueErr m => m
  | PyErr.keyErr m => sq ++ m ++ sq
  | PyErr.indexErr m => m

/-- The `input_error` decorator: run the handler, render a raised
`ValueError`/`KeyError`/`IndexError` as its message text.  Handlers thread
the (possibly already mutated) book alongside the outcome, because Python
mutates the shared objects in place before an exception can surface. -/
def input_error (f : List String → AddressBook → AddressBook × Except PyErr String) :
    List String → AddressBook → AddressBook × String :=
  fun args book =>
    match f args book with
    | (b, Except.ok m) => (b, m)
    | (b, Except.error e) => (b, e.toMessage)

/-- Body of `add_contact` before the decorator.  `args[0]` raises
`IndexError` on an empty list; the record is created and inserted
*before* `add_phone` validates the phone, and `if phone:` skips a falsy
(absent or empty) phone. -/
def add_contact_raw (args : List String) (book : AddressBook) :
    AddressBook × Except PyErr String :=
  match args with
  | [] => (book, Except.error (PyErr.indexErr "list index out of range"))
  | name :: rest =>
    let phone : Option String := rest.head?
    let found := book.find name
    let record := match found with
      | none => Record.mk name [] none
      | some r => r
    let book1 := match found with
      | none => book.add_record (Record.mk name [] none)
      | some _ => book
    let message := match found with
      | none => "Contact added."
      | some _ => "Contact updated."
    match phone with
    | some p =>
      if p = "" then (book1, Except.ok message)
      else if phoneMatch p then
        (AddressBook.mk (dictSet book1.data name { record with phones := record.phones ++ [p] }),
         Except.ok message)
      else (book1, Except.error (PyErr.valueErr "Phone number must have 10 digits."))
    | none => (book1, Except.ok message)

/-- `add_contact = input_error(add_contact_raw)`. -/
def add_contact : List String → AddressBook → AddressBook × String :=
  input_error add_contact_raw

/-- Body of `add_birthday` before the decorator: `args[0], args[1]` raise
`IndexError` when missing; an absent contact raises
`KeyError("Contact not found.")`; `Birthday(birthday)` validates. -/
def add_birthday_raw (args : List String) (book : AddressBook) :
    AddressBook × Except PyErr String :=
  match args with
  | name :: bd :: _ =>
    match book.find name with
    | none => (book, Except.error (PyErr.keyErr "Contact not found."))
    | some r =>
      if (strptimeDMY bd).isSome then
        (AddressBook.mk (dictSet book.data name { r with birthday := some bd }),
         Except.ok ("Birthday added for " ++ name ++ "."))
      else (book, Except.error (PyErr.valueErr "Invalid date format. Use DD.MM.YYYY"))
  | _ => (book, Except.error (PyErr.indexErr "list index out of range"))

/-- `add_birthday = input_error(add_birthday_raw)`. -/
def add_birthday : List String → AddressBook → AddressBook × String :=
  input_error add_birthday_raw

/-- Body of `show_birthday` before the decorator. -/
def show_birthday_raw (args : List String) (book : AddressBook) :
    AddressBook × Except PyErr String :=
  match args with
  | name :: _ =>
    match book.find name with
    | none => (book, Except.error (PyErr.keyErr "Contact not found."))
    | some r => (book, Except.ok (name ++ sq ++ "s birthday is " ++ r.get_birthday))
  | [] => (book, Except.error (PyErr.indexErr "list index out of range"))

/-- `show_birthday = input_error(show_birthday_raw)`. -/
def show_birthday : List String → AddressBook → AddressBook × String :=
  input_error show_birthday_raw

/-- Decorated `birthdays` handler: the decorator turns the `ValueError`
that `get_upcoming_birthdays` can raise into message text. -/
def birthdays_cmd (book : AddressBook) (now : DateTime) : String :=
  match get_upcoming_birthdays book now with
  | Except.error e => e
  | Except.ok [] => "No upcoming birthdays in the next week."
  | Except.ok rs => String.intercalate "\n" (rs.map recordStr)

/-- One step of `main`: the possible outcomes of a dispatched command
(`halt` = the `close`/`exit` break). -/
inductive StepResult where
  | cont : AddressBook → List String → StepResult
  | halt : AddressBook → List String → StepResult
deriving DecidableEq, Repr

/-- The `change` branch of `main`: `name, old_phone, new_phone = args`
raises an *uncaught* `ValueError` unless `args` has exactly three
elements; a missing contact is checked manually; `record.edit_phone` is
not decorated, so its `ValueError` propagates (`Except.error`); on success
`print` renders edit_phone's `None` return value. -/
def change_cmd (args : List String) (book : AddressBook) : Except PyErr StepResult :=
  match args with
  | [name, old_phone, new_phone] =>
    match book.find name with
    | some r =>
      match r.edit_phone old_phone new_phone with
      | Except.ok r2 => Except.ok (StepResult.cont (AddressBook.mk (dictSet book.data name r2)) ["None"])
      | Except.error e => Except.error (PyErr.valueErr e)
    | none => Except.ok (StepResult.cont book ["Contact not found."])
  | _ =>
    Except.error (PyErr.valueErr
      (if args.length < 3 then
        "not enough values to unpack (expected 3, got " ++ toString args.length ++ ")"
       else "too many values to unpack (expected 3)"))

/-- The `phone` branch of `main`: `name = args[0]` raises an *uncaught*
`IndexError` on no arguments. -/
def phone_cmd (args : List String) (book : AddressBook) : Except PyErr StepResult :=
  match args with
  | [] => Except.error (PyErr.indexErr "list index out of range")
  | name :: _ =>
    match book.find name with
    | some r =>
      Except.ok (StepResult.cont book
        [name ++ sq ++ "s phones: " ++ String.intercalate ", " r.phones])
    | none => Except.ok (StepResult.cont book ["Contact not found."])

/-- The `add` branch of `main`. -/
def add_cmd (args : List String) (book : AddressBook) : Except PyErr StepResult :=
  Except.ok (StepResult.cont (add_contact args book).1 [(add_contact args book).2])

/-- The `add-birthday` branch of `main`. -/
def add_birthday_cmd (args : List String) (book : AddressBook) : Except PyErr StepResult :=
  Except.ok (StepResult.cont (add_birthday args book).1 [(add_birthday args book).2])

/-- The `show-birthday` branch of `main`. -/
def show_birthday_cmd (args : List String) (book : AddressBook) : Except PyErr StepResult :=
  Except.ok (StepResult.cont (show_birthday args book).1 [(show_birthday args book).2])

/-- The `if`/`elif` chain of `main`'s loop body after parsing.  File
persistence (`save_to_file` after mutating commands) has no effect on the
in-memory directory or the printed output and is elided here; `now` stands
for `datetime.today()` inside `birthdays`. -/
def dispatch (command : String) (args : List String) (book : AddressBook) (now : DateTime) :
    Except PyErr StepResult :=
  match command with
  | "close" => Except.ok (StepResult.halt book ["Good bye!"])
  | "exit" => Except.ok (StepResult.halt book ["Good bye!"])
  | "hello" => Except.ok (StepResult.cont book ["How can I help you?"])
  | "add" => add_cmd args book
  | "change" => change_cmd args book
  | "phone" => phone_cmd args book
  | "all" => Except.ok (StepResult.cont book (book.data.map (fun kv => recordStr kv.2)))
  | "add-birthday" => add_birthday_cmd args book
  | "show-birthday" => show_birthday_cmd args book
  | "birthdays" => Except.ok (StepResult.cont book [birthdays_cmd book now])
  | _ => Except.ok (StepResult.cont book ["Invalid command."])

/-- `str.split()` (no separator): split on runs of whitespace, no empty
tokens. -/
def splitWsAux : List Char → List Char → List String
  | [], acc => if acc = [] then [] else [String.mk acc.reverse]
  | c :: cs, acc =>
    if c.isWhitespace then
      if acc = [] then splitWsAux cs []
      else String.mk acc.reverse :: splitWsAux cs []
    else splitWsAux cs (c :: acc)

def pySplit (s : String) : List String := splitWsAux s.data []

/-- `parse_input`: `parts[0]` raises an uncaught `IndexError` when the
line holds no tokens. -/
def parse_input (s : String) : Except PyErr (String × List String) :=
  match pySplit s with
  | [] => Except.error (PyErr.indexErr "list index out of range")
  | c :: rest => Except.ok (c, rest)

/-- One iteration of `main`'s `while True` loop on one input line.  There
is no `try` in `main`: an `Except.error` is an exception that escapes the
loop and terminates the process. -/
def main_step (line : String) (book : AddressBook) (now : DateTime) :
    Except PyErr StepResult :=
  match parse_input line with
  | Except.error e => Except.error e
  | Except.ok (c, args) => dispatch c args book now

/-- `main`'s loop over a scripted list of input lines, collecting printed
output; an uncaught exception aborts the remaining lines. -/
def main_loop (lines : List String) (book : AddressBook) (now : DateTime) :
    Except PyErr (AddressBook × List String) :=
  match lines with
  | [] => Except.ok (book, [])
  | l :: rest =>
    match main_step l book now with
    | Except.error e => Except.error e
    | Except.ok (StepResult.halt b outs) => Except.ok (b, outs)
    | Except.ok (StepResult.cont b outs) =>
      (main_loop rest b now).map (fun p => (p.1, outs ++ p.2))

/-! ### Helper lemmas -/

lemma decodeStrList_map (l : List String) :
    decodeStrList (l.map PickleVal.pstr) = some l := by
  induction l with
  | nil => rfl
  | cons s rest ih => simp [decodeStrList, ih]

lemma unpickleRecord_pickleRecord (r : Record) :
    unpickleRecord (pickleRecord r) = some r := by
  cases r with
  | mk n ps b => cases b <;> simp [pickleRecord, unpickleRecord, decodeStrList_map]

lemma unpickleDict_pickle (d : List (String × Record)) :
    unpickleDict (d.map (fun kv => (PickleVal.pstr kv.1, pickleRecord kv.2))) = some d := by
  induction d with
  | nil => rfl
  | cons kv rest ih => simp [unpickleDict, unpickleRecord_pickleRecord, ih]

lemma editPhoneList_found (l1 l2 : List String) (old new : String)
    (h1 : old ∉ l1) (hv : phoneMatch new = true) :
    editPhoneList (l1 ++ old :: l2) old new = Except.ok (l1 ++ new :: l2) := by
  induction l1 with
  | nil => simp [editPhoneList, phone_validate, hv]
  | cons p rest ih =>
    have hp : p ≠ old := fun h => h1 (by simp [h])
    have h2 : old ∉ rest := fun h => h1 (by simp [h])
    simp [editPhoneList, hp, ih h2]

lemma editPhoneList_not_found (ps : List String) (old new : String) (h : old ∉ ps) :
    editPhoneList ps old new = Except.error "Phone not found." := by
  induction ps with
  | nil => rfl
  | cons p rest ih =>
    have hp : p ≠ old := fun hq => h (by simp [hq])
    have h2 : old ∉ rest := fun hq => h (by simp [hq])
    simp [editPhoneList, hp, ih h2]

lemma dictGet_dictSet_self (l : List (String × Record)) (k : String) (v : Record) :
    dictGet (dictSet l k v) k = some v := by
  induction l with
  | nil => simp [dictSet, dictGet]
  | cons kv rest ih =>
    obtain ⟨k1, v1⟩ := kv
    by_cases h : k1 = k
    · simp [dictSet, dictGet, h]
    · simp [dictSet, dictGet, h, ih]

lemma splitWsAux_all_ws (cs : List Char) (h : ∀ c ∈ cs, c.isWhitespace = true) :
    splitWsAux cs [] = [] := by
  induction cs with
  | nil => rfl
  | cons c rest ih =>
    have hc := h c (by simp)
    simp [splitWsAux, hc, ih (fun x hx => h x (by simp [hx]))]

/-! ### C1: persistence round trip -/

/-- C1: for every directory, `save_to_file` followed by `load_from_file`
on a fresh directory with the same location reproduces an equal mapping —
the same name keys with records of equal name, phones and birthday
(structural equality of the insertion-ordered mapping). -/
theorem save_load_round_trip (book : AddressBook) :
    load_from_file (save_to_file book) = Except.ok book := by
  simp [save_to_file, load_from_file, pickleData, unpickleData, unpickleDict_pickle]

/-! ### C4: edit_phone -/

/-- C4: when `old` occurs in the phone list, `edit_phone(old, new)` with a
valid `new` replaces exactly the first occurrence and leaves every other
entry (position and value) unchanged; when `old` does not occur, it fails
with the not-found error (the list untouched, no record returned). -/
theorem edit_phone_spec (r : Record) (old new : String) :
    (∀ l1 l2, r.phones = l1 ++ old :: l2 → old ∉ l1 → phoneMatch new = true →
      r.edit_phone old new = Except.ok { r with phones := l1 ++ new :: l2 })
    ∧ (old ∉ r.phones → r.edit_phone old new = Except.error "Phone not found.") := by
  constructor
  · intro l1 l2 hsplit h1 hv
    unfold Record.edit_phone
    rw [hsplit, editPhoneList_found l1 l2 old new h1 hv]
  · intro h
    unfold Record.edit_phone
    rw [editPhoneList_not_found r.phones old new h]

/-- Witness for `edit_phone_spec`: replacing the first of two equal
entries, and the not-found failure. -/
theorem edit_phone_spec_witness :
    Record.edit_phone (Record.mk "Alice" ["1234567890", "2222222222", "1234567890"] none)
        "1234567890" "5555555555"
      = Except.ok (Record.mk "Alice" ["5555555555", "2222222222", "1234567890"] none)
    ∧ Record.edit_phone (Record.mk "Alice" ["1234567890"] none) "0000000000" "5555555555"
      = Except.error "Phone not found." :=
  ⟨(edit_phone_spec (Record.mk "Alice" ["1234567890", "2222222222", "1234567890"] none)
      "1234567890" "5555555555").1 [] ["2222222222", "1234567890"] rfl (by simp) rfl,
   (edit_phone_spec (Record.mk "Alice" ["1234567890"] none) "0000000000" "5555555555").2
      (by decide)⟩

/-! ### C9: add is not atomic on validation failure -/

/-- C9: `add` with a name not in the directory and an invalid (nonempty)
phone still inserts a fresh record with an empty phone list, and the
decorated handler returns the validation error text as the message. -/
theorem add_contact_not_atomic (book : AddressBook) (name p : String)
    (hf : book.find name = none) (hp : phoneMatch p = false) (hne : p ≠ "") :
    add_contact [name, p] book
      = (book.add_record (Record.mk name [] none), "Phone number must have 10 digits.")
    ∧ (book.add_record (Record.mk name [] none)).find name = some (Record.mk name [] none) := by
  constructor
  · unfold add_contact input_error add_contact_raw
    simp [AddressBook.find] at hf
    simp [AddressBook.find, hf, hne, hp, PyErr.toMessage]
  · unfold AddressBook.add_record AddressBook.find
    exact dictGet_dictSet_self book.data name (Record.mk name [] none)

/-- Witness for `add_contact_not_atomic` at an empty directory with the
invalid phone string `"123"`. -/
theorem add_contact_not_atomic_witness :
    add_contact ["Alice", "123"] (AddressBook.mk [])
      = (AddressBook.mk [("Alice", Record.mk "Alice" [] none)],
         "Phone number must have 10 digits.")
    ∧ (AddressBook.mk [("Alice", Record.mk "Alice" [] none)]).find "Alice"
      = some (Record.mk "Alice" [] none) :=
  add_contact_not_atomic (AddressBook.mk []) "Alice" "123" rfl rfl (by decide)

/-! ### C10: blank input line -/

/-- C10: on a line with no tokens (empty or whitespace-only),
`parse_input` raises an `IndexError` that nothing in `main` catches: the
loop step errors and the remaining scripted lines are never processed —
the process terminates instead of printing "Invalid command." or
re-prompting. -/
theorem blank_line_spec (s : String) (book : AddressBook) (now : DateTime)
    (rest : List String) (h : ∀ c ∈ s.data, c.isWhitespace = true) :
    parse_input s = Except.error (PyErr.indexErr "list index out of range")
    ∧ main_step s book now = Except.error (PyErr.indexErr "list index out of range")
    ∧ main_loop (s :: rest) book now
      = Except.error (PyErr.indexErr "list index out of range") := by
  have hp : pySplit s = [] := splitWsAux_all_ws s.data h
  have h1 : parse_input s = Except.error (PyErr.indexErr "list index out of range") := by
    unfold parse_input
    rw [hp]
  refine ⟨h1, ?_, ?_⟩
  · unfold main_step
    rw [h1]
  · simp [main_loop, main_step, h1]

/-- Witness for `blank_line_spec`: the empty line. -/
theorem blank_line_spec_witness :
    main_step "" (AddressBook.mk []) (DateTime.mk (Date.mk 2024 1 1) 0)
      = Except.error (PyErr.indexErr "list index out of range") :=
  (blank_line_spec "" (AddressBook.mk []) (DateTime.mk (Date.mk 2024 1 1) 0) []
    (by decide)).2.1

/-! ### C2: phone validation -/

/-- C2 counterexample: `re.match(r'^\d{10}$', …)` also accepts ten digits
followed by a trailing newline (Python's `$` matches just before it), so
`"1234567890\n"` — length 11, containing the non-digit `"\n"` — passes
validation, refuting "for every string of a different length or containing
a non-digit character it fails". -/
theorem phone_validate_newline_ce :
    phone_validate "1234567890\n" = Except.ok "1234567890\n"
    ∧ ("1234567890\n").data.length = 11
    ∧ Char.isDigit (Char.ofNat 10) = false :=
  ⟨rfl, rfl, rfl⟩

lemma phoneMatchAux_of_digits (ds : List Char) (hlen : ds.length = 10)
    (hall : ∀ c ∈ ds, c.isDigit = true) : phoneMatchAux ds = true := by
  unfold phoneMatchAux
  simp [hlen, List.all_eq_true.mpr hall]

lemma phoneMatchAux_of_digits_nl (ds : List Char) (hlen : ds.length = 10)
    (hall : ∀ c ∈ ds, c.isDigit = true) :
    phoneMatchAux (ds ++ [Char.ofNat 10]) = true := by
  unfold phoneMatchAux
  have ht : (ds ++ [Char.ofNat 10]).take 10 = ds := by
    rw [← hlen]
    exact List.take_left ds _
  have hd : (ds ++ [Char.ofNat 10]).drop 10 = [Char.ofNat 10] := by
    rw [← hlen]
    exact List.drop_left ds _
  have hL : (ds ++ [Char.ofNat 10]).length = 11 := by
    simp [hlen]
  simp [hL, ht, hd, List.all_eq_true.mpr hall]

lemma phoneMatchAux_true_elim (l : List Char) (h : phoneMatchAux l = true) :
    ∃ ds : List Char, ds.length = 10 ∧ (∀ c ∈ ds, c.isDigit = true) ∧
      (l = ds ∨ l = ds ++ [Char.ofNat 10]) := by
  unfold phoneMatchAux at h
  simp only [Bool.or_eq_true, Bool.and_eq_true, beq_iff_eq, List.all_eq_true] at h
  rcases h with ⟨hlen, hall⟩ | ⟨⟨hlen, hall⟩, hdrop⟩
  · exact ⟨l, hlen, hall, Or.inl rfl⟩
  · refine ⟨l.take 10, by simp [List.length_take, hlen], hall, Or.inr ?_⟩
    conv_lhs => rw [← List.take_append_drop 10 l]
    rw [hdrop]

/-- C2 amended: phone validation succeeds exactly on strings of ten digit
characters, or ten digit characters followed by one trailing newline. -/
theorem phone_validate_iff (s : String) :
    phone_validate s = Except.ok s ↔
    ∃ ds : List Char, ds.length = 10 ∧ (∀ c ∈ ds, c.isDigit = true) ∧
      (s.data = ds ∨ s.data = ds ++ [Char.ofNat 10]) := by
  have hm : phone_validate s = Except.ok s ↔ phoneMatch s = true := by
    unfold phone_validate
    by_cases h : phoneMatch s = true
    · simp [h]
    · simp [h]
  rw [hm]
  constructor
  · intro h
    exact phoneMatchAux_true_elim s.data h
  · rintro ⟨ds, hlen, hall, h | h⟩
    · unfold phoneMatch
      rw [h]
      exact phoneMatchAux_of_digits ds hlen hall
    · unfold phoneMatch
      rw [h]
      exact phoneMatchAux_of_digits_nl ds hlen hall

/-- Witness for `phone_validate_iff`: a ten-digit string validates. -/
theorem phone_validate_iff_witness :
    phone_validate "0123456789" = Except.ok "0123456789" :=
  (phone_validate_iff "0123456789").mpr ⟨"0123456789".data, by decide, by decide, Or.inl rfl⟩

/-! ### C3: birthday validation -/

lemma takeWhile_append_all (p : Char → Bool) (l t : List Char)
    (h : ∀ c ∈ l, p c = true) :
    (l ++ t).takeWhile p = l ++ t.takeWhile p := by
  induction l with
  | nil => simp
  | cons c cs ih =>
    have hc := h c (by simp)
    simp [List.takeWhile_cons_of_pos hc, ih (fun x hx => h x (by simp [hx]))]

lemma dropWhile_append_all (p : Char → Bool) (l t : List Char)
    (h : ∀ c ∈ l, p c = true) :
    (l ++ t).dropWhile p = t.dropWhile p := by
  induction l with
  | nil => simp
  | cons c cs ih =>
    have hc := h c (by simp)
    simp [List.dropWhile_cons_of_pos hc, ih (fun x hx => h x (by simp [hx]))]

lemma dot_not_digit : Char.isDigit '.' = false := rfl

/-- `strptimeDMYChars` on an explicitly decomposed input
`digits ++ "." ++ digits ++ "." ++ digits`. -/
lemma strptimeDMYChars_build (dcs mcs ycs : List Char)
    (hd : ∀ c ∈ dcs, c.isDigit = true) (hm : ∀ c ∈ mcs, c.isDigit = true)
    (hy : ∀ c ∈ ycs, c.isDigit = true) :
    strptimeDMYChars (dcs ++ '.' :: (mcs ++ '.' :: ycs)) =
      if dmyOk dcs mcs ycs then some (digitsVal dcs, digitsVal mcs, digitsVal ycs)
      else none := by
  have h1 : (dcs ++ '.' :: (mcs ++ '.' :: ycs)).dropWhile Char.isDigit
      = '.' :: (mcs ++ '.' :: ycs) := by
    rw [dropWhile_append_all _ _ _ hd, List.dropWhile_cons_of_neg (by simp [dot_not_digit])]
  have ht1 : (dcs ++ '.' :: (mcs ++ '.' :: ycs)).takeWhile Char.isDigit = dcs := by
    rw [takeWhile_append_all _ _ _ hd, List.takeWhile_cons_of_neg (by simp [dot_not_digit])]
    simp
  have h2 : (mcs ++ '.' :: ycs).dropWhile Char.isDigit = '.' :: ycs := by
    rw [dropWhile_append_all _ _ _ hm, List.dropWhile_cons_of_neg (by simp [dot_not_digit])]
  have ht2 : (mcs ++ '.' :: ycs).takeWhile Char.isDigit = mcs := by
    rw [takeWhile_append_all _ _ _ hm, List.takeWhile_cons_of_neg (by simp [dot_not_digit])]
    simp
  have h3 : ycs.dropWhile Char.isDigit = [] := by
    have := dropWhile_append_all Char.isDigit ycs [] hy
    simpa using this
  have ht3 : ycs.takeWhile Char.isDigit = ycs := by
    have := takeWhile_append_all Char.isDigit ycs [] hy
    simpa using this
  unfold strptimeDMYChars
  simp only [h1, ht1, h2, ht2, h3, ht3]
  simp

/-- C3 counterexample: `strptime` accepts one-digit day and month groups
(`"5.3.1990"` parses, though it is not of the 2-digit.2-digit.4-digit
shape — its length is 8, not 10), and rejects a shape-correct string whose
day does not exist in the month (`"31.02.2024"`). -/
theorem birthday_validate_ce :
    birthday_validate "5.3.1990" = Except.ok ()
    ∧ ("5.3.1990").length = 8
    ∧ birthday_validate "31.02.2024" = Except.error "Invalid date format. Use DD.MM.YYYY" :=
  ⟨rfl, rfl, rfl⟩

/-- C3 amended: birthday validation succeeds exactly on strings of the
form `day.month.year` where the day group has 1–2 digits with value 1–31,
the month group has 1–2 digits with value 1–12, the year group has exactly
4 digits with value ≥ 1, and the day exists in that month of that year
(`datetime` range checking). -/
theorem birthday_validate_iff (s : String) :
    birthday_validate s = Except.ok () ↔
    ∃ dcs mcs ycs : List Char,
      s.data = dcs ++ '.' :: (mcs ++ '.' :: ycs)
      ∧ (∀ c ∈ dcs, c.isDigit = true) ∧ (∀ c ∈ mcs, c.isDigit = true)
      ∧ (∀ c ∈ ycs, c.isDigit = true)
      ∧ 1 ≤ dcs.length ∧ dcs.length ≤ 2 ∧ 1 ≤ digitsVal dcs ∧ digitsVal dcs ≤ 31
      ∧ 1 ≤ mcs.length ∧ mcs.length ≤ 2 ∧ 1 ≤ digitsVal mcs ∧ digitsVal mcs ≤ 12
      ∧ ycs.length = 4 ∧ 1 ≤ digitsVal ycs
      ∧ digitsVal dcs ≤ daysInMonth (digitsVal ycs) (digitsVal mcs) := by
  have hbv : birthday_validate s = Except.ok () ↔ ∃ v, strptimeDMY s = some v := by
    unfold birthday_validate
    cases h : strptimeDMY s <;> simp [h]
  rw [hbv]
  unfold strptimeDMY
  constructor
  · rintro ⟨v, hv⟩
    unfold strptimeDMYChars at hv
    split at hv
    case h_2 => exact absurd hv (by simp)
    case h_1 c1 r2 h1 =>
      split at hv
      case isFalse => exact absurd hv (by simp)
      case isTrue hc1 =>
        split at hv
        case h_2 => exact absurd hv (by simp)
        case h_1 c2 r4 h2 =>
          split at hv
          case isFalse => exact absurd hv (by simp)
          case isTrue hc2 =>
            split at hv
            case isFalse => exact absurd hv (by simp)
            case isTrue hcond =>
              obtain ⟨hrest, hok⟩ := hcond
              subst hc1
              subst hc2
              have hcs : s.data = s.data.takeWhile Char.isDigit ++ '.' :: r2 := by
                conv_lhs => rw [← List.takeWhile_append_dropWhile (p := Char.isDigit) (l := s.data)]
                rw [h1]
              have hr2 : r2 = r2.takeWhile Char.isDigit ++ '.' :: r4 := by
                conv_lhs => rw [← List.takeWhile_append_dropWhile (p := Char.isDigit) (l := r2)]
                rw [h2]
              have hr4 : r4 = r4.takeWhile Char.isDigit := by
                conv_lhs => rw [← List.takeWhile_append_dropWhile (p := Char.isDigit) (l := r4)]
                rw [hrest]
                simp
              refine ⟨s.data.takeWhile Char.isDigit, r2.takeWhile Char.isDigit,
                r4.takeWhile Char.isDigit, ?_, ?_, ?_, ?_, ?_⟩
              · conv_lhs => rw [hcs, hr2, hr4]
              · exact fun c hc => List.mem_takeWhile_imp hc
              · exact fun c hc => List.mem_takeWhile_imp hc
              · exact fun c hc => List.mem_takeWhile_imp hc
              · unfold dmyOk at hok
                exact hok
  · rintro ⟨dcs, mcs, ycs, hcs, hd, hm, hy, hconds⟩
    have hok : dmyOk dcs mcs ycs := by
      unfold dmyOk
      exact hconds
    refine ⟨(digitsVal dcs, digitsVal mcs, digitsVal ycs), ?_⟩
    rw [hcs, strptimeDMYChars_build dcs mcs ycs hd hm hy, if_pos hok]

/-- Witness for `birthday_validate_iff`: `"15.03.1990"` validates. -/
theorem birthday_validate_iff_witness :
    birthday_validate "15.03.1990" = Except.ok () :=
  (birthday_validate_iff "15.03.1990").mpr
    ⟨['1', '5'], ['0', '3'], ['1', '9', '9', '0'], by decide, by decide, by decide,
      by decide, by decide, by decide, by decide, by decide, by decide, by decide,
      by decide, by decide, by decide, by decide, by decide⟩

/-! ### C5: upcoming birthdays -/

/-- Specification-side predicate, following the claim's wording: the
record has a birthday whose date, with the year replaced by the reference
date's year (no wraparound), falls within the inclusive day window
`[referenceDate, referenceDate + 7 days]`. -/
def upcomingSpecKeep (refD : Date) (r : Record) : Bool :=
  match r.birthday with
  | none => false
  | some bs =>
    match strptimeDMY bs with
    | none => false
    | some (d, m, _) =>
      decide (refD.toOrdinal ≤ (Date.mk refD.year m d).toOrdinal) &&
      decide ((Date.mk refD.year m d).toOrdinal ≤ refD.toOrdinal + 7)

/-- Precondition for the query not to raise: every stored birthday parses
and survives `replace(year=refYear)` (no Feb 29 issue). -/
def upcomingPre (refD : Date) (r : Record) : Bool :=
  match r.birthday with
  | none => true
  | some bs =>
    match strptimeDMY bs with
    | none => false
    | some (d, m, _) => decide (d ≤ daysInMonth refD.year m)

lemma upcomingAux_filter (rs : List Record) (refD : Date)
    (hb : ∀ r ∈ rs, upcomingPre refD r = true) :
    upcomingAux rs (DateTime.mk refD 0) = Except.ok (rs.filter (upcomingSpecKeep refD)) := by
  induction rs with
  | nil => rfl
  | cons r rest ih =>
    have hr := hb r (by simp)
    have ihh := ih (fun x hx => hb x (by simp [hx]))
    unfold upcomingAux
    cases hbd : r.birthday with
    | none =>
      have hk : upcomingSpecKeep refD r = false := by
        unfold upcomingSpecKeep
        rw [hbd]
      simp [List.filter_cons, hk, ihh]
    | some bs =>
      unfold upcomingPre at hr
      rw [hbd] at hr
      cases hp : strptimeDMY bs with
      | none =>
        simp only [hp] at hr
        simp at hr
      | some t =>
        obtain ⟨d, m, y⟩ := t
        simp only [hp, decide_eq_true_eq] at hr
        have hrep : dateReplaceYear (Date.mk y m d) refD.year
            = some (Date.mk refD.year m d) := by
          unfold dateReplaceYear
          simp [hr]
        have hcond : ((DateTime.mk refD 0).instant
              ≤ (DateTime.mk (Date.mk refD.year m d) 0).instant ∧
            (DateTime.mk (Date.mk refD.year m d) 0).instant
              ≤ (DateTime.mk refD 0).instant + 7 * secsPerDay) ↔
            (refD.toOrdinal ≤ (Date.mk refD.year m d).toOrdinal ∧
             (Date.mk refD.year m d).toOrdinal ≤ refD.toOrdinal + 7) := by
          simp only [DateTime.instant, secsPerDay]
          constructor <;> intro h <;> constructor <;> omega
        by_cases hin : refD.toOrdinal ≤ (Date.mk refD.year m d).toOrdinal ∧
            (Date.mk refD.year m d).toOrdinal ≤ refD.toOrdinal + 7
        · have hk : upcomingSpecKeep refD r = true := by
            unfold upcomingSpecKeep
            rw [hbd]
            simp only [hp]
            simp [hin.1, hin.2]
          simp only [hp, hrep]
          rw [if_pos (hcond.mpr hin), ihh]
          simp [Except.map, List.filter_cons, hk]
        · have hk : upcomingSpecKeep refD r = false := by
            unfold upcomingSpecKeep
            rw [hbd]
            simp only [hp]
            rcases Decidable.not_and_iff_or_not.mp hin with h | h <;> simp [h]
          simp only [hp, hrep]
          rw [if_neg (fun hc => hin (hcond.mp hc)), ihh]
          simp [List.filter_cons, hk]

/-- C5 amended: when the reference instant is at midnight (time-of-day 0),
`get_upcoming_birthdays` returns, in the mapping's insertion order,
exactly the records whose birthday with the year replaced by the reference
year falls in the inclusive window `[referenceDate, referenceDate + 7]`
(no wraparound; records without a birthday never included; a birthday on
the reference date itself included).  For a reference instant later in the
day the comparison `today <= birthday.replace(year=today.year)` uses the
full `datetime.today()` clock value against a midnight date, so a
same-day birthday is excluded (see the counterexample). -/
theorem get_upcoming_spec (book : AddressBook) (refD : Date)
    (hb : ∀ r ∈ book.data.map Prod.snd, upcomingPre refD r = true) :
    get_upcoming_birthdays book (DateTime.mk refD 0)
      = Except.ok ((book.data.map Prod.snd).filter (upcomingSpecKeep refD)) :=
  upcomingAux_filter (book.data.map Prod.snd) refD hb

/-- Witness for `get_upcoming_spec`: Alice's birthday five days ahead of
the reference date is reported. -/
theorem get_upcoming_spec_witness :
    get_upcoming_birthdays
        (AddressBook.mk [("Alice", Record.mk "Alice" [] (some "20.06.1990"))])
        (DateTime.mk (Date.mk 2024 6 15) 0)
      = Except.ok (((AddressBook.mk
          [("Alice", Record.mk "Alice" [] (some "20.06.1990"))]).data.map Prod.snd).filter
            (upcomingSpecKeep (Date.mk 2024 6 15)))
    ∧ ((AddressBook.mk
          [("Alice", Record.mk "Alice" [] (some "20.06.1990"))]).data.map Prod.snd).filter
            (upcomingSpecKeep (Date.mk 2024 6 15))
        = [Record.mk "Alice" [] (some "20.06.1990")] :=
  ⟨get_upcoming_spec (AddressBook.mk [("Alice", Record.mk "Alice" [] (some "20.06.1990"))])
      (Date.mk 2024 6 15) (by decide), by decide⟩

/-- C5 counterexample: Alice's birthday falls on the reference date
2024-06-15 (the claim requires her to be included), but with
`datetime.today()` at noon of that day the query returns the empty list:
`today <= birthday.replace(year=2024)` compares noon against midnight. -/
theorem upcoming_same_day_ce :
    upcomingSpecKeep (Date.mk 2024 6 15) (Record.mk "Alice" [] (some "15.06.1990")) = true
    ∧ get_upcoming_birthdays
        (AddressBook.mk [("Alice", Record.mk "Alice" [] (some "15.06.1990"))])
        (DateTime.mk (Date.mk 2024 6 15) 43200)
      = Except.ok [] :=
  ⟨rfl, rfl⟩

/-! ### C6: days to next birthday -/

/-- Specification-side value, following the claim's wording: the ordinal
of the next occurrence of the birthday's month/day on or after the
reference date — same year if not yet passed (including falling on the
reference date itself), otherwise next year. -/
def nextBirthdayOrdinal (refD : Date) (m d : Nat) : Nat :=
  if refD.toOrdinal ≤ (Date.mk refD.year m d).toOrdinal
  then (Date.mk refD.year m d).toOrdinal
  else (Date.mk (refD.year + 1) m d).toOrdinal

/-- C6 amended: when the current instant is at midnight (time-of-day 0),
`days_to_birthday` returns exactly the number of days from the current
date to the next occurrence of the birthday's month/day on or after the
current date (0 when it falls today), and returns nothing when no
birthday is set.  For a current instant later in the day, `timedelta.days`
floors away the partial day and a same-day birthday counts as already
passed (see the counterexample). -/
theorem days_to_birthday_spec (r : Record) (refD : Date) (bs : String) (d m y : Nat)
    (hb : r.birthday = some bs) (hp : strptimeDMY bs = some (d, m, y))
    (h1 : d ≤ daysInMonth refD.year m) (h2 : d ≤ daysInMonth (refD.year + 1) m) :
    days_to_birthday r (DateTime.mk refD 0)
      = Except.ok (some ((nextBirthdayOrdinal refD m d : Int) - (refD.toOrdinal : Int)))
    ∧ (∀ r2 : Record, r2.birthday = none →
        days_to_birthday r2 (DateTime.mk refD 0) = Except.ok none)
    ∧ (m = refD.month → d = refD.day →
        days_to_birthday r (DateTime.mk refD 0) = Except.ok (some 0)) := by
  have hrep1 : dateReplaceYear (Date.mk y m d) refD.year
      = some (Date.mk refD.year m d) := by
    unfold dateReplaceYear
    simp [h1]
  have hrep2 : dateReplaceYear (Date.mk y m d) (refD.year + 1)
      = some (Date.mk (refD.year + 1) m d) := by
    unfold dateReplaceYear
    simp [h2]
  have hfdiv : ∀ a b : Nat,
      Int.fdiv ((a * secsPerDay + 0 : Nat) - ((b * secsPerDay + 0 : Nat) : Int)) secsPerDay
        = (a : Int) - b := by
    intro a b
    have : ((a * secsPerDay + 0 : Nat) : Int) - ((b * secsPerDay + 0 : Nat) : Int)
        = ((a : Int) - b) * (secsPerDay : Int) := by
      push_cast
      ring
    rw [this, Int.mul_fdiv_cancel _ (by norm_num [secsPerDay])]
  have hmain : days_to_birthday r (DateTime.mk refD 0)
      = Except.ok (some ((nextBirthdayOrdinal refD m d : Int) - (refD.toOrdinal : Int))) := by
    unfold days_to_birthday
    rw [hb]
    simp only [hp, hrep1, hrep2]
    unfold nextBirthdayOrdinal
    by_cases hlt : (DateTime.mk (Date.mk refD.year m d) 0).instant
        < (DateTime.mk refD 0).instant
    · have hord : ¬ refD.toOrdinal ≤ (Date.mk refD.year m d).toOrdinal := by
        simp only [DateTime.instant, secsPerDay] at hlt
        omega
      rw [if_pos hlt, if_neg hord]
      simp only [DateTime.instant]
      rw [hfdiv]
    · have hord : refD.toOrdinal ≤ (Date.mk refD.year m d).toOrdinal := by
        simp only [DateTime.instant, secsPerDay] at hlt
        omega
      rw [if_neg hlt, if_pos hord]
      simp only [DateTime.instant]
      rw [hfdiv]
  refine ⟨hmain, ?_, ?_⟩
  · intro r2 h2b
    unfold days_to_birthday
    rw [h2b]
  · intro hmm hdd
    subst hmm
    subst hdd
    have heta : Date.mk refD.year refD.month refD.day = refD := rfl
    rw [hmain]
    unfold nextBirthdayOrdinal
    rw [heta, if_pos le_rfl]
    simp

/-- Witness for `days_to_birthday_spec`: five days from 2024-06-15 to the
next 20.06. -/
theorem days_to_birthday_spec_witness :
    days_to_birthday (Record.mk "Alice" [] (some "20.06.1990"))
        (DateTime.mk (Date.mk 2024 6 15) 0)
      = Except.ok (some ((nextBirthdayOrdinal (Date.mk 2024 6 15) 6 20 : Int)
          - ((Date.mk 2024 6 15).toOrdinal : Int)))
    ∧ ((nextBirthdayOrdinal (Date.mk 2024 6 15) 6 20 : Int)
          - ((Date.mk 2024 6 15).toOrdinal : Int)) = 5 :=
  ⟨(days_to_birthday_spec (Record.mk "Alice" [] (some "20.06.1990"))
      (Date.mk 2024 6 15) "20.06.1990" 20 6 1990 rfl rfl (by decide) (by decide)).1,
   by decide⟩

/-- C6 counterexample: Alice's birthday is the current date (the claim
requires 0), but with `datetime.today()` at noon the midnight instant of
today's date is already in the past, so the code rolls over to next year
and `timedelta.days` floors the 364.5 days to 364. -/
theorem days_to_birthday_noon_ce :
    days_to_birthday (Record.mk "Alice" [] (some "15.06.1990"))
        (DateTime.mk (Date.mk 2024 6 15) 43200)
      = Except.ok (some 364)
    ∧ (364 : Int) ≠ 0 :=
  ⟨rfl, by decide⟩

/-! ### C7: the change command -/

/-- C7: on a `change` line, an absent contact is reported as
"Contact not found." with the directory unchanged, while a present contact
whose phones do not contain `old_phone` makes the undecorated
`edit_phone` raise `ValueError("Phone not found.")`, which nothing in
`main` catches: the loop step errors and the remaining input is never
processed — the exception propagates to the top level of the process. -/
theorem change_cmd_spec (book : AddressBook) (now : DateTime) (line : String)
    (rest : List String) (name o n : String)
    (hline : pySplit line = ["change", name, o, n]) :
    (book.find name = none →
      main_step line book now = Except.ok (StepResult.cont book ["Contact not found."]))
    ∧ (∀ r, book.find name = some r → o ∉ r.phones →
      main_step line book now = Except.error (PyErr.valueErr "Phone not found.")
      ∧ main_loop (line :: rest) book now
        = Except.error (PyErr.valueErr "Phone not found.")) := by
  have hstep : main_step line book now = change_cmd [name, o, n] book := by
    unfold main_step parse_input
    rw [hline]
    rfl
  constructor
  · intro hf
    rw [hstep]
    unfold change_cmd
    simp [hf]
  · intro r hf hnot
    have hedit : r.edit_phone o n = Except.error "Phone not found." := by
      unfold Record.edit_phone
      rw [editPhoneList_not_found r.phones o n hnot]
    have h1 : main_step line book now = Except.error (PyErr.valueErr "Phone not found.") := by
      rw [hstep]
      unfold change_cmd
      simp [hf, hedit]
    exact ⟨h1, by simp [main_loop, h1]⟩

/-- Witness for `change_cmd_spec`: Alice holds "1234567890"; `change Bob …`
prints the not-found message, `change Alice 0000000000 1111111111` kills
the process. -/
theorem change_cmd_spec_witness :
    main_step "change Bob 0123456789 1111111111"
        (AddressBook.mk [("Alice", Record.mk "Alice" ["1234567890"] none)])
        (DateTime.mk (Date.mk 2024 1 1) 0)
      = Except.ok (StepResult.cont
          (AddressBook.mk [("Alice", Record.mk "Alice" ["1234567890"] none)])
          ["Contact not found."])
    ∧ main_loop ["change Alice 0000000000 1111111111"]
        (AddressBook.mk [("Alice", Record.mk "Alice" ["1234567890"] none)])
        (DateTime.mk (Date.mk 2024 1 1) 0)
      = Except.error (PyErr.valueErr "Phone not found.") :=
  ⟨(change_cmd_spec (AddressBook.mk [("Alice", Record.mk "Alice" ["1234567890"] none)])
      (DateTime.mk (Date.mk 2024 1 1) 0) "change Bob 0123456789 1111111111" []
      "Bob" "0123456789" "1111111111" rfl).1 rfl,
   ((change_cmd_spec (AddressBook.mk [("Alice", Record.mk "Alice" ["1234567890"] none)])
      (DateTime.mk (Date.mk 2024 1 1) 0) "change Alice 0000000000 1111111111" []
      "Alice" "0000000000" "1111111111" rfl).2
      (Record.mk "Alice" ["1234567890"] none) rfl (by decide)).2⟩

/-! ### C8: missing positional arguments -/

/-- C8 counterexample: `change` with one argument raises the tuple-unpack
`ValueError` inside `main`, outside every handler — the process terminates
(the following "hello" line is never reached), refuting "for every command
… the error is caught at the command layer … in particular … change". -/
theorem change_missing_args_ce :
    main_loop ["change x", "hello"] (AddressBook.mk []) (DateTime.mk (Date.mk 2024 1 1) 0)
      = Except.error (PyErr.valueErr "not enough values to unpack (expected 3, got 1)") :=
  rfl

/-- C8 amended: for the decorated handlers (`add`, `add-birthday`,
`show-birthday`) a missing positional argument is caught and rendered as
message text and the loop continues; for `change` (fewer than three
arguments) and `phone` (no argument) the index/unpack error occurs in
`main`'s dispatcher outside any handler and propagates, terminating the
process. -/
theorem missing_args_spec (book : AddressBook) (now : DateTime) (a b : String) :
    dispatch "add" [] book now
      = Except.ok (StepResult.cont book ["list index out of range"])
    ∧ dispatch "add-birthday" [] book now
      = Except.ok (StepResult.cont book ["list index out of range"])
    ∧ dispatch "add-birthday" [a] book now
      = Except.ok (StepResult.cont book ["list index out of range"])
    ∧ dispatch "show-birthday" [] book now
      = Except.ok (StepResult.cont book ["list index out of range"])
    ∧ dispatch "change" [] book now
      = Except.error (PyErr.valueErr "not enough values to unpack (expected 3, got 0)")
    ∧ dispatch "change" [a] book now
      = Except.error (PyErr.valueErr "not enough values to unpack (expected 3, got 1)")
    ∧ dispatch "change" [a, b] book now
      = Except.error (PyErr.valueErr "not enough values to unpack (expected 3, got 2)")
    ∧ dispatch "phone" [] book now
      = Except.error (PyErr.indexErr "list index out of range") := by
  refine ⟨rfl, rfl, rfl, rfl, ?_, ?_, ?_, rfl⟩ <;>
    · unfold dispatch change_cmd
      simp
      decide

end ABook
